import Mathlib

/-!
Shallow embedding of the er-savepatcher save-file core (src/src/savefile.cpp).
Buffers are lists of bytes (`Nat`, well-formed when every entry is < 256).
The `Section` abstraction, the MD5 engine and the hex formatter live in
headers that are not part of src/; they are modelled from the spec where so
marked. Everything else is translated from src/src/savefile.cpp.
-/

deriving instance DecidableEq for Except

namespace savepatcher

/-- Error kinds of the spec's §7: every C++ `savepatcher::exception` thrown in
the core is classified by its origin (IOError, FormatError, NoOpError,
NotFound, OutOfRange). -/
inductive Err where
  | ioError (msg : String)
  | formatError (target : String)
  | noOpError (msg : String)
  | notFound (msg : String)
  | outOfRange
deriving DecidableEq

/-- Modelled from the spec: a Section Descriptor (savefile.h, not under src/)
is a statically declared (offset, length) range into a save buffer. -/
structure Section where
  address : Nat
  size : Nat
deriving DecidableEq

/-- Modelled from the spec: `bytesFrom(buffer)` returns the borrowed slice of
exactly `size` bytes starting at `address`, and fails with `OutOfRange` when
`address + size` exceeds the buffer's size. -/
def Section.bytesFrom (s : Section) (data : List Nat) : Except Err (List Nat) :=
  if s.address + s.size ≤ data.length then
    .ok ((data.drop s.address).take s.size)
  else
    .error .outOfRange

/-- Trailing padding/null bytes are stripped before a byte run is
reinterpreted as text. -/
def trimTrailingZeros (l : List Nat) : List Nat :=
  (l.reverse.dropWhile (· == 0)).reverse

/-- Modelled from the spec: `charsFrom(buffer)` reinterprets the slice as a
printable text run, trimmed of trailing padding/null bytes. -/
def Section.charsFrom (s : Section) (data : List Nat) : Except Err String :=
  (s.bytesFrom data).map fun bs => String.mk ((trimTrailingZeros bs).map Char.ofNat)

/-- Little-endian integer reinterpretation of a byte run: the byte at the
lowest address is the least significant. -/
def castLE : List Nat → Nat
  | [] => 0
  | b :: rest => b + 256 * castLE rest

/-- Modelled from the spec: `castInteger<T>(buffer)` reinterprets the slice as
an integer in little-endian byte order. -/
def Section.castInteger (s : Section) (data : List Nat) : Except Err Nat :=
  (s.bytesFrom data).map castLE

/-- Modelled from the spec: `replace(buffer, newValue)` overwrites exactly
`size` bytes at `address` with the bytes of `newValue` (whose size must equal
`size`), never resizing the buffer and never touching bytes outside the
range. -/
def Section.replace (s : Section) (data value : List Nat) : List Nat :=
  data.take s.address ++ value ++ data.drop (s.address + s.size)

/-- The 32-bit modulus used by the MD5 word arithmetic. -/
def M32 : Nat := 4294967296

/-- Left rotation of a 32-bit word. -/
def rotl32 (x c : Nat) : Nat :=
  ((x <<< c) ||| (x >>> (32 - c))) % M32

/-- Bitwise complement of a 32-bit word. -/
def not32 (x : Nat) : Nat :=
  (M32 - 1) - x % M32

/-- Modelled from the spec: the per-step constant table of the standard MD5
algorithm (the Checksum Engine of util.h is not under src/). -/
def md5K : List Nat :=
  [0xd76aa478, 0xe8c7b756, 0x242070db, 0xc1bdceee,
   0xf57c0faf, 0x4787c62a, 0xa8304613, 0xfd469501,
   0x698098d8, 0x8b44f7af, 0xffff5bb1, 0x895cd7be,
   0x6b901122, 0xfd987193, 0xa679438e, 0x49b40821,
   0xf61e2562, 0xc040b340, 0x265e5a51, 0xe9b6c7aa,
   0xd62f105d, 0x02441453, 0xd8a1e681, 0xe7d3fbc8,
   0x21e1cde6, 0xc33707d6, 0xf4d50d87, 0x455a14ed,
   0xa9e3e905, 0xfcefa3f8, 0x676f02d9, 0x8d2a4c8a,
   0xfffa3942, 0x8771f681, 0x6d9d6122, 0xfde5380c,
   0xa4beea44, 0x4bdecfa9, 0xf6bb4b60, 0xbebfbc70,
   0x289b7ec6, 0xeaa127fa, 0xd4ef3085, 0x04881d05,
   0xd9d4d039, 0xe6db99e5, 0x1fa27cf8, 0xc4ac5665,
   0xf4292244, 0x432aff97, 0xab9423a7, 0xfc93a039,
   0x655b59c3, 0x8f0ccc92, 0xffeff47d, 0x85845dd1,
   0x6fa87e4f, 0xfe2ce6e0, 0xa3014314, 0x4e0811a1,
   0xf7537e82, 0xbd3af235, 0x2ad7d2bb, 0xeb86d391]

/-- Modelled from the spec: the per-step rotation amounts of the standard MD5
algorithm. -/
def md5S : List Nat :=
  [7, 12, 17, 22, 7, 12, 17, 22, 7, 12, 17, 22, 7, 12, 17, 22,
   5, 9, 14, 20, 5, 9, 14, 20, 5, 9, 14, 20, 5, 9, 14, 20,
   4, 11, 16, 23, 4, 11, 16, 23, 4, 11, 16, 23, 4, 11, 16, 23,
   6, 10, 15, 21, 6, 10, 15, 21, 6, 10, 15, 21, 6, 10, 15, 21]

/-- The MD5 nonlinear round function for step `i` on words `b`, `c`, `d`. -/
def md5F (i b c d : Nat) : Nat :=
  if i < 16 then (b &&& c) ||| (not32 b &&& d)
  else if i < 32 then (d &&& b) ||| (not32 d &&& c)
  else if i < 48 then b ^^^ c ^^^ d
  else c ^^^ (b ||| not32 d)

/-- The MD5 message-word index for step `i`. -/
def md5G (i : Nat) : Nat :=
  if i < 16 then i
  else if i < 32 then (5 * i + 1) % 16
  else if i < 48 then (3 * i + 5) % 16
  else (7 * i) % 16

/-- Message word `g` of a 64-byte chunk, decoded little-endian. -/
def chunkWord (chunk : List Nat) (g : Nat) : Nat :=
  castLE ((chunk.drop (4 * g)).take 4)

/-- One MD5 step: rotates the four working words, mixing in constant `i`. -/
def md5Step (chunk : List Nat) (st : Nat × Nat × Nat × Nat) (i : Nat) :
    Nat × Nat × Nat × Nat :=
  let a := st.1
  let b := st.2.1
  let c := st.2.2.1
  let d := st.2.2.2
  let f := (md5F i b c d + a + md5K.getD i 0 + chunkWord chunk (md5G i)) % M32
  (d, (b + rotl32 f (md5S.getD i 0)) % M32, b, c)

/-- Processes one 64-byte chunk, adding the mixed words into the state. -/
def processChunk (st : Nat × Nat × Nat × Nat) (chunk : List Nat) :
    Nat × Nat × Nat × Nat :=
  let r := (List.range 64).foldl (md5Step chunk) st
  ((st.1 + r.1) % M32, (st.2.1 + r.2.1) % M32,
   (st.2.2.1 + r.2.2.1) % M32, (st.2.2.2 + r.2.2.2) % M32)

/-- MD5 padding: a 0x80 byte, zeros up to 56 mod 64, then the bit length as a
64-bit little-endian integer. -/
def md5Pad (msg : List Nat) : List Nat :=
  let len := msg.length
  let zeros := (120 - (len + 1) % 64) % 64
  msg ++ 0x80 :: List.replicate zeros 0 ++
    (List.range 8).map fun i => ((8 * len) >>> (8 * i)) % 256

/-- Splits a padded message into 64-byte chunks; the first argument is fuel,
instantiated with the message length. -/
def splitChunks : Nat → List Nat → List (List Nat)
  | 0, _ => []
  | _ + 1, [] => []
  | fuel + 1, b :: rest =>
    (b :: rest).take 64 :: splitChunks fuel ((b :: rest).drop 64)

/-- Serializes a 32-bit word as four little-endian bytes. -/
def wordLE (x : Nat) : List Nat :=
  [x % 256, x / 256 % 256, x / 65536 % 256, x / 16777216 % 256]

/-- Serializes the final MD5 state as the 16-byte digest. -/
def md5Final (st : Nat × Nat × Nat × Nat) : List Nat :=
  wordLE st.1 ++ wordLE st.2.1 ++ wordLE st.2.2.1 ++ wordLE st.2.2.2

/-- Modelled from the spec: `GenerateMd5` (util.h, not under src/) computes
the standard 16-byte MD5 digest of a byte run. -/
def GenerateMd5 (msg : List Nat) : List Nat :=
  let padded := md5Pad msg
  md5Final ((splitChunks padded.length padded).foldl processChunk
    (0x67452301, 0xefcdab89, 0x98badcfe, 0x10325476))

/-- The lowercase hex character for a value below 16, as printf %x yields. -/
def hexChar (n : Nat) : Char :=
  if n < 10 then Char.ofNat (48 + n) else Char.ofNat (87 + n)

/-- Two lowercase hex characters for one byte. -/
def byteHex (b : Nat) : List Char :=
  [hexChar (b / 16 % 16), hexChar (b % 16)]

/-- Modelled from the spec: `FormatHex` (util.h, not under src/) renders a
byte run as a lowercase hex string. -/
def FormatHex (bytes : List Nat) : String :=
  String.mk ((bytes.map byteHex).flatten)

/-- Modelled from the spec: the named Section constants of savefile.h (not
under src/). Their concrete offsets are unknown, so the layout is kept
abstract; the sizes fixed by the spec (§6) appear as theorem hypotheses. -/
structure Layout where
  SaveFileSize : Nat
  HeaderBNDSection : Section
  SaveHeaderSection : Section
  SaveHeaderChecksumSection : Section
  SteamIdSection : Section
  NameSection : Section
  SecondsPlayedSection : Section
  LevelSection : Section
  ActiveSection : Section
deriving DecidableEq

/-- The save-file state: the mutable working copy of the raw bytes and the
active-slot index computed once at load. -/
structure SaveFile where
  patchedSaveData : List Nat
  activeSlotIndex : Nat
deriving DecidableEq

/-- SaveFile::validateData: the buffer is a valid save iff the magic Section
reads "BND" and the size equals the fixed format size; otherwise it throws an
exception naming the target. -/
def validateData (L : Layout) (data : List Nat) (target : String) :
    Except Err Unit :=
  match L.HeaderBNDSection.charsFrom data with
  | .error e => .error e
  | .ok magic =>
    if magic ≠ "BND" ∨ data.length ≠ L.SaveFileSize then
      .error (.formatError target)
    else
      .ok ()

/-- The index of the first element equal to `p`, as computed by std::find
followed by std::distance. -/
def findFirstIndex (p : Nat) : List Nat → Option Nat
  | [] => none
  | b :: rest =>
    if b = p then some 0 else
      match findFirstIndex p rest with
      | none => none
      | some i => some (i + 1)

/-- SaveFile::getActiveSlotIndex: scans the active-flags Section for the first
byte equal to `sizeof(true)`, i.e. 1, and throws when none is found. -/
def getActiveSlotIndex (L : Layout) (data : List Nat) : Except Err Nat :=
  match L.ActiveSection.bytesFrom data with
  | .error e => .error e
  | .ok sec =>
    match findFirstIndex 1 sec with
    | some i => .ok i
    | none => .error (.notFound "Could not find active slot index")

/-- SaveFile::checksum: the checksum Section's bytes formatted as hex. -/
def checksum (L : Layout) (data : List Nat) : Except Err String :=
  (L.SaveHeaderChecksumSection.bytesFrom data).map FormatHex

/-- SaveFile::recalculateChecksum: digests the save-header Section of the
working buffer, throws when the stored checksum is already that digest, and
otherwise writes the digest into the checksum Section, returning the hex
string for logging. -/
def recalculateChecksum (L : Layout) (sf : SaveFile) :
    Except Err (SaveFile × String) :=
  match L.SaveHeaderSection.bytesFrom sf.patchedSaveData with
  | .error e => .error e
  | .ok headerBytes =>
    let saveHeaderChecksum := GenerateMd5 headerBytes
    let saveHeaderChecksumString := FormatHex saveHeaderChecksum
    match checksum L sf.patchedSaveData with
    | .error e => .error e
    | .ok current =>
      if current = saveHeaderChecksumString then
        .error (.noOpError "Save header checksum is already correct")
      else
        .ok ({ sf with
          patchedSaveData :=
            L.SaveHeaderChecksumSection.replace sf.patchedSaveData
              saveHeaderChecksum },
          saveHeaderChecksumString)

/-- SaveFile::steamId: the owner identifier, the steam-ID Section cast as a
little-endian integer. -/
def steamId (L : Layout) (data : List Nat) : Except Err Nat :=
  L.SteamIdSection.castInteger data

/-- SaveFile::replaceSteamId: throws when the new ID equals the current one,
otherwise assembles the byte representation with per-byte right shifts and
replaces the steam-ID Section of the working buffer. -/
def replaceSteamId (L : Layout) (sf : SaveFile) (inputSteamId : Nat) :
    Except Err SaveFile :=
  match steamId L sf.patchedSaveData with
  | .error e => .error e
  | .ok current =>
    if current = inputSteamId then
      .error (.noOpError "Steam ID is already correct")
    else
      let newSteamIdBytes :=
        (List.range L.SteamIdSection.size).map fun i =>
          (inputSteamId >>> (i * 8)) % 256
      .ok { sf with
        patchedSaveData :=
          L.SteamIdSection.replace sf.patchedSaveData newSteamIdBytes }

/-- SaveFile::activeSlot: returns the stored `activeSlotIndex` member; the
buffer argument is unused. -/
def activeSlot (sf : SaveFile) (_data : List Nat) : Nat :=
  sf.activeSlotIndex

/-- Modelled from the spec: the SaveFile constructor (savefile.h, not under
src/) stores the raw bytes as the working copy and computes
`activeSlotIndex` once at load via getActiveSlotIndex. -/
def SaveFile.load (L : Layout) (data : List Nat) : Except Err SaveFile :=
  match getActiveSlotIndex L data with
  | .error e => .error e
  | .ok idx => .ok ⟨data, idx⟩

/-- A file system, mapping a file name to its contents when it exists. -/
def FileSystem : Type := String → Option (List Nat)

/-- SaveFile::write, with std::ofstream modelled from its standard semantics:
constructing the output stream with std::ios::out creates the file, or
truncates it to zero bytes when it exists; only then is the working buffer
validated, and its bytes are written on success. -/
def write (L : Layout) (sf : SaveFile) (fs : FileSystem) (filename : String) :
    FileSystem × Except Err Unit :=
  let fsOpened : FileSystem := fun n => if n = filename then some [] else fs n
  match validateData L sf.patchedSaveData "Generated data" with
  | .error e => (fsOpened, .error e)
  | .ok () =>
    (fun n => if n = filename then some sf.patchedSaveData else fsOpened n,
      .ok ())

/-- A small coherent layout used to exercise the model on concrete buffers:
the magic tag at offset 0, four active-slot flags at offset 3, the checksum
at offset 10, the hashed save-header region at offset 30 and the owner
identifier at offset 40, in a 60-byte file. -/
def Ltest : Layout :=
  ⟨60, ⟨0, 3⟩, ⟨30, 8⟩, ⟨10, 16⟩, ⟨40, 8⟩, ⟨48, 4⟩, ⟨52, 4⟩, ⟨56, 1⟩, ⟨3, 4⟩⟩

/-- A valid 60-byte buffer for `Ltest`: magic "BND", active flags [0,0,1,0],
a zeroed checksum field, header bytes 1..8 and a zero owner identifier. -/
def bufW : List Nat :=
  [66, 78, 68, 0, 0, 1, 0, 0, 0, 0] ++ List.replicate 16 0 ++ [0, 0, 0, 0] ++
    [1, 2, 3, 4, 5, 6, 7, 8] ++ [0, 0] ++ [0, 0, 0, 0, 0, 0, 0, 0] ++
    List.replicate 12 0

/-- The save-file state loaded from `bufW` (its active slot is 2). -/
def sfW : SaveFile := ⟨bufW, 2⟩

/-- The MD5 digest of the header bytes [1,2,3,4,5,6,7,8] of `bufW`. -/
def digestW : List Nat :=
  [14, 224, 100, 108, 28, 119, 216, 19, 28, 200, 244, 238, 101, 199, 103, 59]

/-- The hex rendering of `digestW`. -/
def strW : String := "0ee0646c1c77d8131cc8f4ee65c7673b"

/-- `bufW` with `digestW` written into the checksum Section. -/
def bufWPatched : List Nat :=
  [66, 78, 68, 0, 0, 1, 0, 0, 0, 0] ++ digestW ++ [0, 0, 0, 0] ++
    [1, 2, 3, 4, 5, 6, 7, 8] ++ [0, 0] ++ [0, 0, 0, 0, 0, 0, 0, 0] ++
    List.replicate 12 0

/-- The save-file state after recalculating the checksum of `sfW`. -/
def sfWPatched : SaveFile := ⟨bufWPatched, 2⟩

/-- `bufW` with the owner identifier replaced by 258 (bytes [2,1,0,...,0]). -/
def bufW258 : List Nat :=
  [66, 78, 68, 0, 0, 1, 0, 0, 0, 0] ++ List.replicate 16 0 ++ [0, 0, 0, 0] ++
    [1, 2, 3, 4, 5, 6, 7, 8] ++ [0, 0] ++ [2, 1, 0, 0, 0, 0, 0, 0] ++
    List.replicate 12 0

/-- The save-file state after replacing the owner identifier of `sfW`. -/
def sfW258 : SaveFile := ⟨bufW258, 2⟩

/-- A 60-byte buffer whose active-flags Section is all zero. -/
def bufZero : List Nat := [66, 78, 68] ++ List.replicate 57 0

/-- A file system holding a non-empty file at the output path. -/
def fs0 : FileSystem := fun n => if n = "out.sl2" then some [1, 2, 3] else none

/-- A working buffer of the right size but with a wrong magic tag, so that
validation of the working buffer fails at write time. -/
def sfInvalid : SaveFile := ⟨List.replicate 60 0, 0⟩

section HelperTheorems

theorem take_drop_append (l1 l2 l3 : List Nat) :
    List.take l2.length (List.drop l1.length (l1 ++ l2 ++ l3)) = l2 := by
  rw [List.append_assoc, List.drop_left, List.take_left]

theorem Section.replace_length (s : Section) (data value : List Nat)
    (hfit : s.address + s.size ≤ data.length) (hlen : value.length = s.size) :
    (s.replace data value).length = data.length := by
  simp only [Section.replace, List.length_append, List.length_take, List.length_drop]
  omega

theorem Section.getElem?_replace_outside (s : Section) (data value : List Nat)
    (hfit : s.address + s.size ≤ data.length) (hlen : value.length = s.size)
    (i : Nat) (hi : i < s.address ∨ s.address + s.size ≤ i) :
    (s.replace data value)[i]? = data[i]? := by
  unfold Section.replace
  have hta : (data.take s.address).length = s.address := by
    simp only [List.length_take]; omega
  rcases hi with hlt | hge
  · rw [List.append_assoc, List.getElem?_append_left (by omega),
      List.getElem?_take_of_lt hlt]
  · rw [List.append_assoc, List.getElem?_append_right (by omega), hta,
      List.getElem?_append_right (by rw [hlen]; omega), hlen, List.getElem?_drop]
    congr 1
    omega

theorem Section.bytesFrom_replace_self (s : Section) (data value : List Nat)
    (hfit : s.address + s.size ≤ data.length) (hlen : value.length = s.size) :
    s.bytesFrom (s.replace data value) = .ok value := by
  have hrl := s.replace_length data value hfit hlen
  have hta : (data.take s.address).length = s.address := by
    simp only [List.length_take]; omega
  have key := take_drop_append (data.take s.address) value
    (data.drop (s.address + s.size))
  rw [hta, hlen] at key
  unfold Section.bytesFrom
  rw [hrl, if_pos hfit]
  unfold Section.replace
  rw [key]

theorem Section.bytesFrom_ok (s : Section) (data v : List Nat)
    (h : s.bytesFrom data = .ok v) :
    s.address + s.size ≤ data.length ∧ v = (data.drop s.address).take s.size := by
  unfold Section.bytesFrom at h
  split at h
  · injection h with h'
    exact ⟨by assumption, h'.symm⟩
  · cases h

theorem Section.bytesFrom_fit (s : Section) (data : List Nat)
    (h : s.address + s.size ≤ data.length) :
    s.bytesFrom data = .ok ((data.drop s.address).take s.size) := by
  unfold Section.bytesFrom
  rw [if_pos h]

theorem Section.bytesFrom_oob (s : Section) (data : List Nat)
    (h : data.length < s.address + s.size) :
    s.bytesFrom data = .error .outOfRange := by
  unfold Section.bytesFrom
  rw [if_neg (by omega)]

theorem Section.bytesFrom_replace_disjoint (s t : Section) (data value : List Nat)
    (hfit : s.address + s.size ≤ data.length) (hlen : value.length = s.size)
    (hdisj : t.address + t.size ≤ s.address ∨ s.address + s.size ≤ t.address) :
    t.bytesFrom (s.replace data value) = t.bytesFrom data := by
  have hrl := s.replace_length data value hfit hlen
  unfold Section.bytesFrom
  rw [hrl]
  split
  · refine congrArg Except.ok (List.ext_getElem? fun n => ?_)
    by_cases hn : n < t.size
    · rw [List.getElem?_take_of_lt hn, List.getElem?_take_of_lt hn,
        List.getElem?_drop, List.getElem?_drop]
      exact s.getElem?_replace_outside data value hfit hlen (t.address + n)
        (by omega)
    · rw [List.getElem?_eq_none, List.getElem?_eq_none]
      · simp only [List.length_take]
        omega
      · simp only [List.length_take]
        omega
  · rfl

theorem wordLE_length (x : Nat) : (wordLE x).length = 4 := by
  simp [wordLE]

theorem GenerateMd5_length (msg : List Nat) : (GenerateMd5 msg).length = 16 := by
  simp [GenerateMd5, md5Final, wordLE_length]

theorem findFirstIndex_eq_some (p : Nat) (l : List Nat) (i : Nat)
    (h : findFirstIndex p l = some i) :
    l[i]? = some p ∧ ∀ j, j < i → l[j]? ≠ some p := by
  induction l generalizing i with
  | nil => cases h
  | cons b rest ih =>
    unfold findFirstIndex at h
    by_cases hbp : b = p
    · rw [if_pos hbp] at h
      injection h with h'
      subst h'
      subst hbp
      exact ⟨by simp, fun j hj => by omega⟩
    · rw [if_neg hbp] at h
      cases hr : findFirstIndex p rest with
      | none => rw [hr] at h; cases h
      | some i' =>
        rw [hr] at h
        injection h with h'
        subst h'
        obtain ⟨h1, h2⟩ := ih i' hr
        refine ⟨by simpa using h1, fun j hj => ?_⟩
        match j with
        | 0 =>
          simp only [List.getElem?_cons_zero]
          exact fun hc => hbp (Option.some.inj hc)
        | j' + 1 =>
          simpa using h2 j' (by omega)

theorem findFirstIndex_eq_none (p : Nat) (l : List Nat)
    (h : ∀ b ∈ l, b ≠ p) : findFirstIndex p l = none := by
  induction l with
  | nil => rfl
  | cons b rest ih =>
    unfold findFirstIndex
    rw [if_neg (h b (by simp)), ih fun x hx => h x (by simp [hx])]

theorem dropWhile_length_le (p : Nat → Bool) (l : List Nat) :
    (l.dropWhile p).length ≤ l.length := by
  induction l with
  | nil => simp
  | cons b rest ih =>
    rw [List.dropWhile_cons]
    split
    · exact Nat.le_succ_of_le ih
    · exact Nat.le_refl _

theorem dropWhile_length_eq (p : Nat → Bool) (l : List Nat)
    (h : (l.dropWhile p).length = l.length) : l.dropWhile p = l := by
  induction l with
  | nil => rfl
  | cons b rest _ =>
    by_cases hpb : p b
    · rw [List.dropWhile_cons_of_pos hpb] at h ⊢
      have hle := dropWhile_length_le p rest
      exfalso
      simp only [List.length_cons] at h
      omega
    · rw [List.dropWhile_cons_of_neg hpb]

theorem trimTrailingZeros_length_eq (l : List Nat)
    (h : (trimTrailingZeros l).length = l.length) : trimTrailingZeros l = l := by
  unfold trimTrailingZeros at h ⊢
  have hd : (l.reverse.dropWhile (· == 0)).length = l.reverse.length := by
    simpa using h
  rw [dropWhile_length_eq _ _ hd, List.reverse_reverse]

theorem trimTrailingZeros_length_le (l : List Nat) :
    (trimTrailingZeros l).length ≤ l.length := by
  unfold trimTrailingZeros
  have := dropWhile_length_le (· == 0) l.reverse
  simpa using this

theorem charToNat_ofNat_byte (n : Nat) (h : n < 256) : (Char.ofNat n).toNat = n := by
  unfold Char.ofNat
  split
  · rfl
  · exact absurd (Or.inl (by omega)) (by assumption)

theorem castLE_shiftBytes (k x : Nat) :
    castLE ((List.range k).map fun i => (x >>> (i * 8)) % 256) = x % 2 ^ (8 * k) := by
  induction k generalizing x with
  | zero => simp [castLE, Nat.mod_one]
  | succ n ih =>
    rw [List.range_succ_eq_map, List.map_cons, List.map_map]
    have hmap : (List.range n).map ((fun i => (x >>> (i * 8)) % 256) ∘ Nat.succ)
        = (List.range n).map fun i => ((x >>> 8) >>> (i * 8)) % 256 := by
      apply List.map_congr_left
      intro i _
      simp only [Function.comp_apply]
      have h8 : Nat.succ i * 8 = 8 + i * 8 := by omega
      rw [h8, Nat.shiftRight_add]
    rw [hmap]
    simp only [castLE, Nat.zero_mul, Nat.shiftRight_zero]
    rw [ih (x >>> 8), Nat.shiftRight_eq_div_pow]
    have hpow : (2 : Nat) ^ (8 * (n + 1)) = 256 * 2 ^ (8 * n) := by
      rw [Nat.mul_succ, Nat.pow_add]
      norm_num [Nat.mul_comm]
    rw [hpow, Nat.mod_mul]

theorem getActiveSlotIndex_ok_eq (L : Layout) (data sec : List Nat)
    (hsec : L.ActiveSection.bytesFrom data = .ok sec) :
    getActiveSlotIndex L data =
      match findFirstIndex 1 sec with
      | some i => .ok i
      | none => .error (.notFound "Could not find active slot index") := by
  unfold getActiveSlotIndex
  rw [hsec]

theorem replaceSteamId_ok_eq (L : Layout) (sf : SaveFile) (current : Nat)
    (hcur : steamId L sf.patchedSaveData = .ok current) (inputSteamId : Nat) :
    replaceSteamId L sf inputSteamId =
      if current = inputSteamId then
        .error (.noOpError "Steam ID is already correct")
      else
        .ok { sf with
          patchedSaveData :=
            L.SteamIdSection.replace sf.patchedSaveData
              ((List.range L.SteamIdSection.size).map fun i =>
                (inputSteamId >>> (i * 8)) % 256) } := by
  unfold replaceSteamId
  rw [hcur]

theorem recalculateChecksum_ok_eq (L : Layout) (sf : SaveFile)
    (hb : List Nat) (current : String)
    (hhb : L.SaveHeaderSection.bytesFrom sf.patchedSaveData = .ok hb)
    (hcs : checksum L sf.patchedSaveData = .ok current) :
    recalculateChecksum L sf =
      if current = FormatHex (GenerateMd5 hb) then
        .error (.noOpError "Save header checksum is already correct")
      else
        .ok ({ sf with
          patchedSaveData :=
            L.SaveHeaderChecksumSection.replace sf.patchedSaveData
              (GenerateMd5 hb) },
          FormatHex (GenerateMd5 hb)) := by
  unfold recalculateChecksum
  rw [hhb, hcs]

theorem castInteger_ok (s : Section) (data : List Nat) (n : Nat)
    (h : s.castInteger data = .ok n) :
    ∃ bs, s.bytesFrom data = .ok bs ∧ n = castLE bs := by
  unfold Section.castInteger at h
  cases hb : s.bytesFrom data with
  | error e => rw [hb] at h; cases h
  | ok bs =>
    rw [hb] at h
    simp only [Except.map] at h
    injection h with h'
    exact ⟨bs, rfl, h'.symm⟩

theorem checksum_ok (L : Layout) (data : List Nat) (s : String)
    (h : checksum L data = .ok s) :
    ∃ cb, L.SaveHeaderChecksumSection.bytesFrom data = .ok cb ∧
      s = FormatHex cb := by
  unfold checksum at h
  cases hb : L.SaveHeaderChecksumSection.bytesFrom data with
  | error e => rw [hb] at h; cases h
  | ok cb =>
    rw [hb] at h
    simp only [Except.map] at h
    injection h with h'
    exact ⟨cb, rfl, h'.symm⟩

theorem charsFrom_error (s : Section) (data : List Nat) (e : Err)
    (h : s.bytesFrom data = .error e) : s.charsFrom data = .error e := by
  unfold Section.charsFrom
  rw [h]
  rfl

theorem charsFrom_ok (s : Section) (data bs : List Nat)
    (h : s.bytesFrom data = .ok bs) :
    s.charsFrom data = .ok (String.mk ((trimTrailingZeros bs).map Char.ofNat)) := by
  unfold Section.charsFrom
  rw [h]
  rfl

theorem validateData_error_eq (L : Layout) (data : List Nat) (target : String)
    (e : Err) (h : L.HeaderBNDSection.charsFrom data = .error e) :
    validateData L data target = .error e := by
  unfold validateData
  rw [h]

theorem validateData_magic_eq (L : Layout) (data : List Nat) (target : String)
    (magic : String) (h : L.HeaderBNDSection.charsFrom data = .ok magic) :
    validateData L data target =
      if magic ≠ "BND" ∨ data.length ≠ L.SaveFileSize then
        .error (.formatError target)
      else
        .ok () := by
  unfold validateData
  rw [h]

theorem recalculateChecksum_ok_post (L : Layout) (sf sf' : SaveFile) (str : String)
    (hdisj : L.SaveHeaderChecksumSection.address +
        L.SaveHeaderChecksumSection.size ≤ L.SaveHeaderSection.address ∨
      L.SaveHeaderSection.address + L.SaveHeaderSection.size ≤
        L.SaveHeaderChecksumSection.address)
    (hsize : L.SaveHeaderChecksumSection.size = 16)
    (hok : recalculateChecksum L sf = .ok (sf', str)) :
    ∃ hb, L.SaveHeaderSection.bytesFrom sf.patchedSaveData = .ok hb ∧
      L.SaveHeaderSection.bytesFrom sf'.patchedSaveData = .ok hb ∧
      checksum L sf'.patchedSaveData = .ok (FormatHex (GenerateMd5 hb)) ∧
      str = FormatHex (GenerateMd5 hb) := by
  cases hhb : L.SaveHeaderSection.bytesFrom sf.patchedSaveData with
  | error e =>
    unfold recalculateChecksum at hok
    rw [hhb] at hok
    cases hok
  | ok hb =>
    cases hcs : checksum L sf.patchedSaveData with
    | error e =>
      unfold recalculateChecksum at hok
      rw [hhb, hcs] at hok
      cases hok
    | ok current =>
      rw [recalculateChecksum_ok_eq L sf hb current hhb hcs] at hok
      by_cases he : current = FormatHex (GenerateMd5 hb)
      · rw [if_pos he] at hok
        cases hok
      · rw [if_neg he] at hok
        injection hok with h'
        have hsf' : ({ sf with
            patchedSaveData :=
              L.SaveHeaderChecksumSection.replace sf.patchedSaveData
                (GenerateMd5 hb) } : SaveFile) = sf' := congrArg Prod.fst h'
        have hstr : FormatHex (GenerateMd5 hb) = str := congrArg Prod.snd h'
        obtain ⟨cb, hcb, -⟩ := checksum_ok L sf.patchedSaveData current hcs
        obtain ⟨hfitC, -⟩ := Section.bytesFrom_ok _ _ _ hcb
        have hdlen : (GenerateMd5 hb).length = L.SaveHeaderChecksumSection.size := by
          rw [GenerateMd5_length, hsize]
        have hdata : sf'.patchedSaveData =
            L.SaveHeaderChecksumSection.replace sf.patchedSaveData
              (GenerateMd5 hb) := by
          rw [← hsf']
        refine ⟨hb, rfl, ?_, ?_, hstr.symm⟩
        · rw [hdata,
            Section.bytesFrom_replace_disjoint _ _ _ _ hfitC hdlen hdisj.symm]
          exact hhb
        · rw [hdata]
          unfold checksum
          rw [Section.bytesFrom_replace_self _ _ _ hfitC hdlen]
          rfl

end HelperTheorems

/-- C9: for every buffer and every Section, `bytesFrom` returns a slice of
exactly `size` bytes starting at `address` when the range fits, and fails
with `OutOfRange` whenever `address + size` exceeds the buffer's size. -/
theorem Section_bytesFrom_spec (s : Section) (data : List Nat) :
    (s.address + s.size ≤ data.length →
      ∃ v, s.bytesFrom data = .ok v ∧ v.length = s.size ∧
        ∀ i, i < s.size → v[i]? = data[s.address + i]?) ∧
    (data.length < s.address + s.size →
      s.bytesFrom data = .error .outOfRange) := by
  constructor
  · intro hfit
    refine ⟨(data.drop s.address).take s.size, s.bytesFrom_fit data hfit, ?_, ?_⟩
    · simp only [List.length_take, List.length_drop]
      omega
    · intro i hi
      rw [List.getElem?_take_of_lt hi, List.getElem?_drop]
  · exact s.bytesFrom_oob data

/-- Witness for C9 at the Section (1, 2) of the buffer [5, 6, 7, 8]. -/
theorem Section_bytesFrom_spec_witness :
    ∃ v, Section.bytesFrom ⟨1, 2⟩ [5, 6, 7, 8] = .ok v ∧ v.length = 2 ∧
      ∀ i, i < 2 → v[i]? = [5, 6, 7, 8][1 + i]? :=
  (Section_bytesFrom_spec ⟨1, 2⟩ [5, 6, 7, 8]).1 (by decide)

/-- C7: the active-slot computation returns the index of the first byte equal
to 1 in the active-flags Section and fails with NotFound when no byte is 1;
in particular flags [0,0,1,0] yield index 2 and all-zero flags yield
NotFound. -/
theorem getActiveSlotIndex_spec (L : Layout) (data sec : List Nat)
    (hsec : L.ActiveSection.bytesFrom data = .ok sec) :
    (∀ i, getActiveSlotIndex L data = .ok i →
      sec[i]? = some 1 ∧ ∀ j, j < i → sec[j]? ≠ some 1) ∧
    ((∀ b ∈ sec, b ≠ 1) →
      getActiveSlotIndex L data =
        .error (.notFound "Could not find active slot index")) ∧
    getActiveSlotIndex Ltest bufW = .ok 2 ∧
    getActiveSlotIndex Ltest bufZero =
      .error (.notFound "Could not find active slot index") := by
  have heq := getActiveSlotIndex_ok_eq L data sec hsec
  refine ⟨?_, ?_, by decide, by decide⟩
  · intro i hi
    cases hf : findFirstIndex 1 sec with
    | none => rw [hf] at heq; rw [heq] at hi; cases hi
    | some i0 =>
      rw [hf] at heq
      rw [heq] at hi
      injection hi with h'
      subst h'
      exact findFirstIndex_eq_some 1 sec i0 hf
  · intro hall
    rw [heq, findFirstIndex_eq_none 1 sec hall]

/-- Witness for C7 at the flags Section [0,0,1,0] of `bufW`. -/
theorem getActiveSlotIndex_spec_witness :
    ([0, 0, 1, 0] : List Nat)[2]? = some 1 ∧
      ∀ j, j < 2 → ([0, 0, 1, 0] : List Nat)[j]? ≠ some 1 :=
  (getActiveSlotIndex_spec Ltest bufW [0, 0, 1, 0] (by decide)).1 2 (by decide)

/-- C10: the activeSlot accessor ignores its explicit buffer argument — any
two buffers give the same result, the `activeSlotIndex` computed once at
load — so it can never show differing before/after values. -/
theorem activeSlot_independent (L : Layout) (sf sf0 : SaveFile)
    (b1 b2 data : List Nat) (hload : SaveFile.load L data = .ok sf0) :
    activeSlot sf b1 = activeSlot sf b2 ∧
    getActiveSlotIndex L data = .ok (activeSlot sf0 b1) := by
  refine ⟨rfl, ?_⟩
  unfold SaveFile.load at hload
  cases hg : getActiveSlotIndex L data with
  | error e => rw [hg] at hload; cases hload
  | ok idx =>
    rw [hg] at hload
    injection hload with h'
    subst h'
    rfl

/-- Witness for C10 at `bufW` and two unrelated buffers. -/
theorem activeSlot_independent_witness :
    activeSlot sfW [1] = activeSlot sfW [2] ∧
    getActiveSlotIndex Ltest bufW = .ok (activeSlot ⟨bufW, 2⟩ [1]) :=
  activeSlot_independent Ltest sfW ⟨bufW, 2⟩ [1] [2] bufW (by decide)

/-- C5: replacing the owner identifier with the value it already has fails
with NoOpError; the failed call returns only the error, so the working
buffer is untouched. -/
theorem replaceSteamId_noOp (L : Layout) (sf : SaveFile) (current : Nat)
    (hcur : steamId L sf.patchedSaveData = .ok current) :
    replaceSteamId L sf current =
      .error (.noOpError "Steam ID is already correct") := by
  rw [replaceSteamId_ok_eq L sf current hcur current, if_pos rfl]

/-- Witness for C5: the owner identifier of `bufW` is 0, and replacing it
with 0 is rejected. -/
theorem replaceSteamId_noOp_witness :
    replaceSteamId Ltest sfW 0 =
      .error (.noOpError "Steam ID is already correct") :=
  replaceSteamId_noOp Ltest sfW 0 (by decide)

/-- C3: for a 64-bit value, a successful replaceSteamId (new value differs
from the current one) followed by the owner-identifier accessor returns
exactly the replaced value: the per-byte right-shift loop is the inverse of
the little-endian decode. -/
theorem replaceSteamId_roundTrip (L : Layout) (sf sf' : SaveFile) (x : Nat)
    (hsize : L.SteamIdSection.size = 8) (hx : x < 2 ^ 64)
    (hok : replaceSteamId L sf x = .ok sf') :
    steamId L sf'.patchedSaveData = .ok x := by
  cases hcur : steamId L sf.patchedSaveData with
  | error e =>
    unfold replaceSteamId at hok
    rw [hcur] at hok
    cases hok
  | ok current =>
    rw [replaceSteamId_ok_eq L sf current hcur x] at hok
    by_cases hc : current = x
    · rw [if_pos hc] at hok
      cases hok
    · rw [if_neg hc] at hok
      injection hok with h'
      have hcur' : L.SteamIdSection.castInteger sf.patchedSaveData = .ok current :=
        hcur
      obtain ⟨bs, hbs, -⟩ := castInteger_ok _ _ _ hcur'
      obtain ⟨hfit, -⟩ := Section.bytesFrom_ok _ _ _ hbs
      have hblen : ((List.range L.SteamIdSection.size).map fun i =>
          (x >>> (i * 8)) % 256).length = L.SteamIdSection.size := by
        simp
      have hdata : sf'.patchedSaveData =
          L.SteamIdSection.replace sf.patchedSaveData
            ((List.range L.SteamIdSection.size).map fun i =>
              (x >>> (i * 8)) % 256) := by
        rw [← h']
      unfold steamId Section.castInteger
      rw [hdata, Section.bytesFrom_replace_self _ _ _ hfit hblen]
      simp only [Except.map]
      congr 1
      rw [castLE_shiftBytes, hsize]
      exact Nat.mod_eq_of_lt hx

/-- Witness for C3: replacing the owner identifier 0 of `bufW` with 258 and
reading it back yields 258. -/
theorem replaceSteamId_roundTrip_witness :
    steamId Ltest sfW258.patchedSaveData = .ok 258 :=
  replaceSteamId_roundTrip Ltest sfW sfW258 258 (by decide) (by decide) (by decide)

/-- C4: a successful replaceSteamId never changes the buffer's length and
leaves every byte outside the owner-ID Section's (offset, length) range
byte-for-byte identical. -/
theorem replaceSteamId_frame (L : Layout) (sf sf' : SaveFile) (x : Nat)
    (hok : replaceSteamId L sf x = .ok sf') :
    sf'.patchedSaveData.length = sf.patchedSaveData.length ∧
    ∀ i, i < L.SteamIdSection.address ∨
        L.SteamIdSection.address + L.SteamIdSection.size ≤ i →
      sf'.patchedSaveData[i]? = sf.patchedSaveData[i]? := by
  cases hcur : steamId L sf.patchedSaveData with
  | error e =>
    unfold replaceSteamId at hok
    rw [hcur] at hok
    cases hok
  | ok current =>
    rw [replaceSteamId_ok_eq L sf current hcur x] at hok
    by_cases hc : current = x
    · rw [if_pos hc] at hok
      cases hok
    · rw [if_neg hc] at hok
      injection hok with h'
      have hcur' : L.SteamIdSection.castInteger sf.patchedSaveData = .ok current :=
        hcur
      obtain ⟨bs, hbs, -⟩ := castInteger_ok _ _ _ hcur'
      obtain ⟨hfit, -⟩ := Section.bytesFrom_ok _ _ _ hbs
      have hblen : ((List.range L.SteamIdSection.size).map fun i =>
          (x >>> (i * 8)) % 256).length = L.SteamIdSection.size := by
        simp
      have hdata : sf'.patchedSaveData =
          L.SteamIdSection.replace sf.patchedSaveData
            ((List.range L.SteamIdSection.size).map fun i =>
              (x >>> (i * 8)) % 256) := by
        rw [← h']
      rw [hdata]
      exact ⟨Section.replace_length _ _ _ hfit hblen,
        fun i hi => Section.getElem?_replace_outside _ _ _ hfit hblen i hi⟩

/-- Witness for C4: after replacing the owner identifier of `bufW` with 258,
the length is unchanged and byte 9 (just below the Section) is untouched. -/
theorem replaceSteamId_frame_witness :
    sfW258.patchedSaveData.length = sfW.patchedSaveData.length ∧
      sfW258.patchedSaveData[9]? = sfW.patchedSaveData[9]? := by
  have h := replaceSteamId_frame Ltest sfW sfW258 258 (by decide)
  exact ⟨h.1, h.2 9 (Or.inl (by decide))⟩

/-- C1: after a successful recalculateChecksum, the checksum accessor on the
working buffer equals the lowercase hex of the MD5 digest of the save-header
Section's bytes in the working buffer, and the call returns that same hex
string. The checksum Section is disjoint from the hashed header region and
16 bytes wide, as fixed by the file format. -/
theorem recalculateChecksum_correct (L : Layout) (sf sf' : SaveFile) (str : String)
    (hdisj : L.SaveHeaderChecksumSection.address +
        L.SaveHeaderChecksumSection.size ≤ L.SaveHeaderSection.address ∨
      L.SaveHeaderSection.address + L.SaveHeaderSection.size ≤
        L.SaveHeaderChecksumSection.address)
    (hsize : L.SaveHeaderChecksumSection.size = 16)
    (hok : recalculateChecksum L sf = .ok (sf', str)) :
    ∃ hb, L.SaveHeaderSection.bytesFrom sf'.patchedSaveData = .ok hb ∧
      checksum L sf'.patchedSaveData = .ok (FormatHex (GenerateMd5 hb)) ∧
      str = FormatHex (GenerateMd5 hb) := by
  obtain ⟨hb, -, h2, h3, h4⟩ :=
    recalculateChecksum_ok_post L sf sf' str hdisj hsize hok
  exact ⟨hb, h2, h3, h4⟩

set_option maxRecDepth 8000 in
/-- Witness for C1: recalculating the checksum of `sfW` writes the digest of
its header bytes [1,...,8] and returns its hex rendering. -/
theorem recalculateChecksum_correct_witness :
    ∃ hb, Ltest.SaveHeaderSection.bytesFrom sfWPatched.patchedSaveData = .ok hb ∧
      checksum Ltest sfWPatched.patchedSaveData = .ok (FormatHex (GenerateMd5 hb)) ∧
      strW = FormatHex (GenerateMd5 hb) :=
  recalculateChecksum_correct Ltest sfW sfWPatched strW (by decide) (by decide)
    (by decide)

/-- C6: recalculateChecksum fails with NoOpError whenever the stored checksum
already equals the hex of the freshly computed digest of the header Section;
in particular a second call immediately after a successful one fails. -/
theorem recalculateChecksum_noOp_spec (L : Layout) :
    (∀ sf hb, L.SaveHeaderSection.bytesFrom sf.patchedSaveData = .ok hb →
      checksum L sf.patchedSaveData = .ok (FormatHex (GenerateMd5 hb)) →
      recalculateChecksum L sf =
        .error (.noOpError "Save header checksum is already correct")) ∧
    (∀ sf sf' str,
      (L.SaveHeaderChecksumSection.address +
          L.SaveHeaderChecksumSection.size ≤ L.SaveHeaderSection.address ∨
        L.SaveHeaderSection.address + L.SaveHeaderSection.size ≤
          L.SaveHeaderChecksumSection.address) →
      L.SaveHeaderChecksumSection.size = 16 →
      recalculateChecksum L sf = .ok (sf', str) →
      recalculateChecksum L sf' =
        .error (.noOpError "Save header checksum is already correct")) := by
  have hgen : ∀ sf hb,
      L.SaveHeaderSection.bytesFrom sf.patchedSaveData = .ok hb →
      checksum L sf.patchedSaveData = .ok (FormatHex (GenerateMd5 hb)) →
      recalculateChecksum L sf =
        .error (.noOpError "Save header checksum is already correct") := by
    intro sf hb hhb hcs
    rw [recalculateChecksum_ok_eq L sf hb (FormatHex (GenerateMd5 hb)) hhb hcs,
      if_pos rfl]
  refine ⟨hgen, fun sf sf' str hdisj hsize hok => ?_⟩
  obtain ⟨hb, -, h2, h3, -⟩ :=
    recalculateChecksum_ok_post L sf sf' str hdisj hsize hok
  exact hgen sf' hb h2 h3

set_option maxRecDepth 8000 in
/-- Witness for C6: recalculating the checksum of `sfW` succeeds, and doing
it again on the result is rejected as a no-op. -/
theorem recalculateChecksum_noOp_witness :
    recalculateChecksum Ltest sfWPatched =
      .error (.noOpError "Save header checksum is already correct") :=
  (recalculateChecksum_noOp_spec Ltest).2 sfW sfWPatched strW (by decide)
    (by decide) (by decide)

/-- C2 (amended): validation succeeds iff the buffer's length equals the
fixed format size and its first three bytes are "BND"; when the buffer holds
at least the three magic bytes any failure is a FormatError naming the given
label, but a buffer shorter than three bytes fails with OutOfRange from the
magic Section read. -/
theorem validateData_spec (L : Layout) (data : List Nat) (target : String)
    (hmagic : L.HeaderBNDSection = ⟨0, 3⟩)
    (hsz : 3 ≤ L.SaveFileSize)
    (hwf : ∀ b ∈ data, b < 256) :
    (validateData L data target = .ok () ↔
      data.length = L.SaveFileSize ∧ data.take 3 = [66, 78, 68]) ∧
    (3 ≤ data.length → validateData L data target ≠ .ok () →
      validateData L data target = .error (.formatError target)) ∧
    (data.length < 3 → validateData L data target = .error .outOfRange) := by
  by_cases hlen : 3 ≤ data.length
  case neg =>
    have hbf : L.HeaderBNDSection.bytesFrom data = .error .outOfRange := by
      rw [hmagic]
      exact Section.bytesFrom_oob _ data (show data.length < 0 + 3 by omega)
    have hvd := validateData_error_eq L data target .outOfRange
      (charsFrom_error _ data .outOfRange hbf)
    refine ⟨?_, fun h3 _ => absurd h3 hlen, fun _ => hvd⟩
    rw [hvd]
    constructor
    · intro h
      cases h
    · rintro ⟨h1, -⟩
      exfalso
      omega
  case pos =>
    have hbf : L.HeaderBNDSection.bytesFrom data = .ok (data.take 3) := by
      rw [hmagic]
      have := Section.bytesFrom_fit ⟨0, 3⟩ data (show 0 + 3 ≤ data.length by omega)
      simpa using this
    have hcf := charsFrom_ok _ data _ hbf
    have hvd := validateData_magic_eq L data target _ hcf
    have htake_len : (data.take 3).length = 3 := by
      rw [List.length_take]
      omega
    have hiff : String.mk ((trimTrailingZeros (data.take 3)).map Char.ofNat) = "BND"
        ↔ data.take 3 = [66, 78, 68] := by
      constructor
      · intro hm
        have hdata : (trimTrailingZeros (data.take 3)).map Char.ofNat = "BND".data :=
          congrArg String.data hm
        rw [show ("BND".data : List Char) = ['B', 'N', 'D'] from rfl] at hdata
        have hlen3 : (trimTrailingZeros (data.take 3)).length = 3 := by
          have := congrArg List.length hdata
          simpa using this
        have htrim : trimTrailingZeros (data.take 3) = data.take 3 :=
          trimTrailingZeros_length_eq _ (by rw [hlen3, htake_len])
        rw [htrim] at hdata
        obtain ⟨b0, b1, b2, heq3⟩ := List.length_eq_three.mp htake_len
        rw [heq3] at hdata
        simp only [List.map_cons, List.map_nil] at hdata
        injection hdata with h0 hrest
        injection hrest with h1 hrest2
        injection hrest2 with h2 hnil
        have hm0 : b0 ∈ data := List.take_subset 3 data (heq3 ▸ (by simp))
        have hm1 : b1 ∈ data := List.take_subset 3 data (heq3 ▸ (by simp))
        have hm2 : b2 ∈ data := List.take_subset 3 data (heq3 ▸ (by simp))
        have e0 : b0 = 66 := by
          have ht := congrArg Char.toNat h0
          rw [charToNat_ofNat_byte b0 (hwf b0 hm0)] at ht
          exact ht.trans rfl
        have e1 : b1 = 78 := by
          have ht := congrArg Char.toNat h1
          rw [charToNat_ofNat_byte b1 (hwf b1 hm1)] at ht
          exact ht.trans rfl
        have e2 : b2 = 68 := by
          have ht := congrArg Char.toNat h2
          rw [charToNat_ofNat_byte b2 (hwf b2 hm2)] at ht
          exact ht.trans rfl
        rw [heq3, e0, e1, e2]
      · intro ht
        rw [ht]
        decide
    refine ⟨?_, ?_, fun hcontra => absurd hlen (by omega)⟩
    · rw [hvd]
      constructor
      · intro hok
        by_cases hcond :
            String.mk ((trimTrailingZeros (data.take 3)).map Char.ofNat) ≠ "BND" ∨
              data.length ≠ L.SaveFileSize
        · rw [if_pos hcond] at hok
          cases hok
        · push_neg at hcond
          exact ⟨hcond.2, hiff.mp hcond.1⟩
      · rintro ⟨h1, h2⟩
        rw [if_neg (by push_neg; exact ⟨hiff.mpr h2, h1⟩)]
    · intro _ hne
      rw [hvd] at hne ⊢
      by_cases hcond :
          String.mk ((trimTrailingZeros (data.take 3)).map Char.ofNat) ≠ "BND" ∨
            data.length ≠ L.SaveFileSize
      · rw [if_pos hcond]
      · rw [if_neg hcond] at hne
        exact absurd rfl hne

/-- Counterexample for C2 as frozen: the empty buffer has the wrong size, yet
validation fails with OutOfRange from the magic Section read, not with a
FormatError naming the label. -/
theorem validateData_counterexample :
    validateData Ltest [] "original" = .error .outOfRange ∧
    validateData Ltest [] "original" ≠ .error (.formatError "original") := by
  exact ⟨by decide, by decide⟩

/-- Witness for C2 (amended) at `bufW`: size 60 with magic "BND" validates. -/
theorem validateData_spec_witness :
    validateData Ltest bufW "Loaded save data" = .ok () :=
  (validateData_spec Ltest bufW "Loaded save data" rfl (by decide)
    (by decide)).1.mpr ⟨by decide, by decide⟩

/-- C8 (code bug): SaveFile::write opens the output stream before validating
the working buffer, and std::ofstream truncates on open; so when validation
fails, a pre-existing output file has already been truncated to zero bytes
instead of being left unmodified. -/
theorem write_truncates_despite_invalid :
    fs0 "out.sl2" = some [1, 2, 3] ∧
    validateData Ltest sfInvalid.patchedSaveData "Generated data" =
      .error (.formatError "Generated data") ∧
    (write Ltest sfInvalid fs0 "out.sl2").2 =
      .error (.formatError "Generated data") ∧
    (write Ltest sfInvalid fs0 "out.sl2").1 "out.sl2" = some [] := by
  exact ⟨by decide, by decide, by decide, by decide⟩

end savepatcher
